import Mathlib

/-!
Verification of the `cntx` NCA/PFS0 reader library.

We give a shallow embedding of the Rust sources (`src/nca.rs`, `src/pfs0.rs`)
into Lean. Machine integers become `Nat` (the code only widens, never wraps,
on the paths we model); byte buffers become `List Nat`; fallible functions
return an `Outcome` that distinguishes Rust `Err` returns from Rust panics
(`todo!`, slice-index panics, `unwrap` on `Err`). AES-128 block decryption is
an external crate (`aes`); we keep it as an abstract parameter
`aesDecBlock : key → block → block` and model `block_modes::Ecb` (no padding)
on top of it, exactly as `nca.rs` invokes it.
-/

namespace Cntx

/-- Mirror of the `std::io::ErrorKind` values the library constructs. -/
inductive ErrorKind
  | invalidInput
  | unexpectedEof
  deriving Repr, DecidableEq

/-- A `std::io::Error`: a kind plus its message string. -/
structure IoError where
  kind : ErrorKind
  msg : String
  deriving Repr, DecidableEq

/-- Result of running a piece of Rust code that may return `Ok`, return
`Err`, or panic (`todo!`, out-of-bounds slice index, `unwrap`). -/
inductive Outcome (α : Type)
  | ok (a : α)
  | err (e : IoError)
  | panicked (msg : String)
  deriving Repr, DecidableEq

/-- True iff the outcome is an `Ok` return. -/
def Outcome.isOk {α : Type} : Outcome α → Bool
  | .ok _ => true
  | _ => false

/-- True iff the outcome is an `Err` return (not a panic). -/
def Outcome.isErr {α : Type} : Outcome α → Bool
  | .err _ => true
  | _ => false

/-- True iff the outcome is a panic. -/
def Outcome.isPanicked {α : Type} : Outcome α → Bool
  | .panicked _ => true
  | _ => false

/-! ## AES-128-ECB as used by `nca.rs`

`Ecb::<Aes128, NoPadding>::decrypt` splits its input into consecutive
16-byte blocks and decrypts each block independently with the block cipher.
The block cipher itself lives in the external `aes` crate, so we abstract it
as a function from a 16-byte key and a 16-byte block to a 16-byte block. -/

/-- Split a byte list into consecutive 16-byte chunks: chunk `i` is
`l[16*i .. 16*i+16)` (the last chunk is shorter if the length is not a
multiple of 16; `nca.rs` only ever passes multiples of 16). -/
def chunks16 (l : List Nat) : List (List Nat) :=
  (List.range ((l.length + 15) / 16)).map (fun i => (l.drop (16 * i)).take 16)

/-- ECB decryption with no padding: decrypt each 16-byte block with the
abstract AES-128 block decryption `aesDecBlock`. -/
def ecbDecrypt (aesDecBlock : List Nat → List Nat → List Nat)
    (key data : List Nat) : List Nat :=
  (chunks16 data).flatMap (aesDecBlock key)

/-! ## `src/nca.rs`: data model -/

/-- `nca.rs` `KeyAreaEncryptionKeyIndex`. -/
inductive KeyAreaEncryptionKeyIndex
  | application
  | ocean
  | system
  deriving Repr, DecidableEq

/-- `nca.rs` `FileSystemEntry` (`start_offset`/`end_offset` are `u32`
counts of 0x200-byte media units). -/
structure FileSystemEntry where
  start_offset : Nat
  end_offset : Nat
  deriving Repr, DecidableEq

/-- `nca.rs` `KeyArea`: 0x20-byte XTS key, 0x10-byte CTR key, 0x10-byte
unknown key. -/
structure KeyArea where
  aes_xts_key : List Nat
  aes_ctr_key : List Nat
  unk_key : List Nat
  deriving Repr, DecidableEq

/-- `KeyArea::empty()`. -/
def KeyArea.empty : KeyArea :=
  { aes_xts_key := List.replicate 0x20 0
    aes_ctr_key := List.replicate 0x10 0
    unk_key := List.replicate 0x10 0 }

/-- `KeyArea::from_slice`: bytes `0..0x20` are the XTS key, `0x20..0x30`
the CTR key, `0x30..0x40` the unknown key. -/
def KeyArea.from_slice (slice : List Nat) : KeyArea :=
  { aes_xts_key := slice.take 0x20
    aes_ctr_key := (slice.drop 0x20).take 0x10
    unk_key := (slice.drop 0x30).take 0x10 }

/-- `nca.rs` `MEDIA_UNIT_SIZE = 0x200`. -/
def MEDIA_UNIT_SIZE : Nat := 0x200

/-- `nca.rs` `MAX_FILESYSTEM_COUNT = 4`. -/
def MAX_FILESYSTEM_COUNT : Nat := 4

/-- The fields of the decrypted NCA `Header` that the modelled code paths
read (signatures, content metadata and the reserved areas are carried by
the real struct but never inspected by the functions under verification). -/
structure Header where
  magic : Nat
  key_generation_old : Nat
  key_area_encryption_key_index : KeyAreaEncryptionKeyIndex
  key_generation : Nat
  rights_id : List Nat
  fs_entries : List FileSystemEntry
  encrypted_key_area : List Nat
  deriving Repr, DecidableEq

/-- `Header::MAGIC = u32::from_le_bytes(*b"NCA3")`. -/
def Header.MAGIC : Nat := 0x3341434E

/-- `Header::get_key_generation`: take the larger of the old and new key
generation fields; values above zero are decremented (0 and 1 both denote
master key 0). -/
def Header.get_key_generation (h : Header) : Nat :=
  let base_key_gen :=
    if h.key_generation_old < h.key_generation then h.key_generation
    else h.key_generation_old
  if base_key_gen > 0 then base_key_gen - 1 else base_key_gen

/-- `nca.rs` `FileSystemType`. -/
inductive FileSystemType
  | romFs
  | partitionFs
  deriving Repr, DecidableEq

/-- `nca.rs` `HashType`. -/
inductive HashType
  | auto
  | hierarchicalSha256
  | hierarchicalIntegrity
  deriving Repr, DecidableEq

/-- `nca.rs` `EncryptionType`. -/
inductive EncryptionType
  | auto
  | noCrypto
  | aesCtrOld
  | aesCtr
  | aesCtrEx
  deriving Repr, DecidableEq

/-- Debug-format name of an `EncryptionType`, as interpolated into the
`todo!` panic message by `open_pfs0_filesystem`/`open_romfs_filesystem`. -/
def EncryptionType.debugName : EncryptionType → String
  | .auto => "Auto"
  | .noCrypto => "None"
  | .aesCtrOld => "AesCtrOld"
  | .aesCtr => "AesCtr"
  | .aesCtrEx => "AesCtrEx"

/-- `nca.rs` `HierarchicalSha256` (reserved tail omitted). -/
structure HierarchicalSha256 where
  block_size : Nat
  hash_table_offset : Nat
  hash_table_size : Nat
  pfs0_offset : Nat
  pfs0_size : Nat
  deriving Repr, DecidableEq

/-- `nca.rs` `HierarchicalIntegrityLevelInfo`. -/
structure HierarchicalIntegrityLevelInfo where
  offset : Nat
  size : Nat
  block_size_log2 : Nat
  deriving Repr, DecidableEq

/-- `nca.rs` `HierarchicalIntegrity` (magic and hash omitted; the modelled
code paths only read `levels`, a 6-element array). -/
structure HierarchicalIntegrity where
  levels : List HierarchicalIntegrityLevelInfo
  deriving Repr, DecidableEq

/-- `nca.rs` `HashInfo` is an untagged `union` of the two hash layouts;
the code reads whichever view the section demands. We model it as carrying
both views (the verified paths never relate the two). -/
structure HashInfo where
  hierarchical_sha256 : HierarchicalSha256
  hierarchical_integrity : HierarchicalIntegrity
  deriving Repr, DecidableEq

/-- `nca.rs` `SparseInfo` (the modelled code paths only read
`generation`). -/
structure SparseInfo where
  generation : Nat
  deriving Repr, DecidableEq

/-- The fields of a decrypted `FileSystemHeader` that the modelled code
paths read. -/
structure FileSystemHeader where
  version : Nat
  fs_type : FileSystemType
  hash_type : HashType
  encryption_type : EncryptionType
  hash_info : HashInfo
  ctr : Nat
  sparse_info : SparseInfo
  deriving Repr, DecidableEq

/-- Default used for total `getD` list access in places where the Rust code
indexes after an explicit bounds check. -/
def fsHeaderDefault : FileSystemHeader :=
  { version := 0
    fs_type := .romFs
    hash_type := .auto
    encryption_type := .auto
    hash_info :=
      { hierarchical_sha256 :=
          { block_size := 0, hash_table_offset := 0, hash_table_size := 0
            pfs0_offset := 0, pfs0_size := 0 }
        hierarchical_integrity := { levels := [] } }
    ctr := 0
    sparse_info := { generation := 0 } }

/-- Modelled from the spec: `src/key.rs` is not part of the provided
sources; the `Keyset` record's fields follow spec §6 (Inputs) and the field
accesses performed in `nca.rs` (`header_key`, the three
`key_area_keys_*` arrays and `title_key_encryption_keys`). -/
structure Keyset where
  header_key : List Nat
  key_area_keys_application : List (List Nat)
  key_area_keys_ocean : List (List Nat)
  key_area_keys_system : List (List Nat)
  title_key_encryption_keys : List (List Nat)

/-- The key-area-key array selected by
`header.key_area_encryption_key_index` in `NCA::new`. -/
def selectKeyAreaKeys (keyset : Keyset) : KeyAreaEncryptionKeyIndex → List (List Nat)
  | .application => keyset.key_area_keys_application
  | .ocean => keyset.key_area_keys_ocean
  | .system => keyset.key_area_keys_system

/-- The in-memory `NCA` struct (minus the shared reader handle, which the
pure embedding threads separately). -/
structure NCA where
  dec_key_area : KeyArea
  dec_title_key : Option (List Nat)
  header : Header
  fs_headers : List FileSystemHeader
  deriving Repr, DecidableEq

/-- `NCA::new`, starting from the XTS-decrypted header and the four
XTS-decrypted section headers (the XTS step itself only transports bytes
from the reader into those structs and is not observable by any claim).
Mirrors the source order: magic check, key-generation computation,
key-area-key selection and bounds check, rights-id branch (title-key ECB
decryption or key-area ECB decryption), then collection of the section
headers whose entry has a nonzero start offset. -/
def NCA.new (aesDecBlock : List Nat → List Nat → List Nat)
    (header : Header) (fs_headers : List FileSystemHeader)
    (keyset : Keyset) (title_key : Option (List Nat)) : Outcome NCA :=
  if header.magic ≠ Header.MAGIC then
    .err ⟨.invalidInput, "Invalid NCA magic (only NCA3 is supported for now)"⟩
  else
    let key_gen := header.get_key_generation
    let key_area_keys := selectKeyAreaKeys keyset header.key_area_encryption_key_index
    if key_gen ≥ key_area_keys.length then
      .err ⟨.invalidInput, "Key area key not present for key generation"⟩
    else
      let key_area_key := key_area_keys.getD key_gen []
      let actual_fs_headers :=
        ((header.fs_entries.zip fs_headers).filter
          (fun p => p.1.start_offset * MEDIA_UNIT_SIZE > 0)).map (fun p => p.2)
      if header.rights_id ≠ List.replicate 0x10 0 then
        match title_key with
        | some enc_title_key =>
          if key_gen ≥ keyset.title_key_encryption_keys.length then
            .err ⟨.invalidInput, "Title key encryption key not present for key generation"⟩
          else
            let tkek := keyset.title_key_encryption_keys.getD key_gen []
            .ok { dec_key_area := KeyArea.empty
                  dec_title_key := some (ecbDecrypt aesDecBlock tkek enc_title_key)
                  header := header
                  fs_headers := actual_fs_headers }
        | none =>
          .err ⟨.invalidInput, "NCA requires title key to be decrypted and none was supplied"⟩
      else
        let dec_key_area :=
          KeyArea.from_slice (ecbDecrypt aesDecBlock key_area_key header.encrypted_key_area)
        .ok { dec_key_area := dec_key_area
              dec_title_key := none
              header := header
              fs_headers := actual_fs_headers }

/-- `NCA::get_filesystem_count`. -/
def NCA.get_filesystem_count (n : NCA) : Nat :=
  n.fs_headers.length

/-- `NCA::get_aes_ctr_decrypt_key`: the decrypted title key if one was
derived, otherwise the CTR key of the decrypted key area. -/
def NCA.get_aes_ctr_decrypt_key (n : NCA) : List Nat :=
  match n.dec_title_key with
  | some dec_title_key => dec_title_key
  | none => n.dec_key_area.aes_ctr_key

/-- `NCA::get_fs_offset`: reads the section header at index `idx` of the
filtered `fs_headers` list but the file-system entry at index `idx` of the
original four-slot `header.fs_entries` array; panics (`todo!`) on a sparse
section, otherwise returns `start_offset * MEDIA_UNIT_SIZE`. -/
def NCA.get_fs_offset (n : NCA) (idx : Nat) : Outcome Nat :=
  let fs_header := n.fs_headers.getD idx fsHeaderDefault
  let fs_entry := n.header.fs_entries.getD idx ⟨0, 0⟩
  if fs_header.sparse_info.generation ≠ 0 then
    .panicked "not yet implemented: Sparse section NCA support"
  else
    .ok (fs_entry.start_offset * MEDIA_UNIT_SIZE)

/-- The observable configuration of the `Aes128CtrReader` built by
`open_pfs0_filesystem`/`open_romfs_filesystem`: the absolute base offset
the reader decrypts from, the section counter nonce and the AES-CTR key. -/
structure CtrReaderCfg where
  base_offset : Nat
  ctr : Nat
  key : List Nat
  deriving Repr, DecidableEq

/-- `NCA::open_pfs0_filesystem`, up to the construction of the CTR reader
(the subsequent `PFS0::new` parse is modelled separately in the PFS0
section): index bounds check, filesystem-type check, `get_fs_offset`
(which panics on sparse sections), then either the CTR-reader
configuration for `AesCtr` sections or a `todo!` panic for every other
encryption type. -/
def NCA.open_pfs0_filesystem (n : NCA) (idx : Nat) : Outcome CtrReaderCfg :=
  if idx ≥ n.fs_headers.length then
    .err ⟨.invalidInput, "Invalid filesystem index"⟩
  else
    let fs_header := n.fs_headers.getD idx fsHeaderDefault
    if fs_header.fs_type ≠ FileSystemType.partitionFs then
      .err ⟨.invalidInput, "Invalid filesystem type"⟩
    else
      match n.get_fs_offset idx with
      | .panicked msg => .panicked msg
      | .err e => .err e
      | .ok fs_start_offset =>
        match fs_header.encryption_type with
        | .aesCtr =>
          .ok { base_offset :=
                  fs_start_offset + fs_header.hash_info.hierarchical_sha256.pfs0_offset
                ctr := fs_header.ctr
                key := n.get_aes_ctr_decrypt_key }
        | enc_type =>
          .panicked ("not yet implemented: Unsupported crypto type: " ++ enc_type.debugName)

/-- `NCA::open_romfs_filesystem`, up to the construction of the CTR reader:
index bounds check, filesystem-type check, `get_fs_offset`, then either the
CTR-reader configuration (base = section start plus the offset of the last
hierarchical-integrity level) for `AesCtr` sections or a `todo!` panic. -/
def NCA.open_romfs_filesystem (n : NCA) (idx : Nat) : Outcome CtrReaderCfg :=
  if idx ≥ n.fs_headers.length then
    .err ⟨.invalidInput, "Invalid filesystem index"⟩
  else
    let fs_header := n.fs_headers.getD idx fsHeaderDefault
    if fs_header.fs_type ≠ FileSystemType.romFs then
      .err ⟨.invalidInput, "Invalid filesystem type"⟩
    else
      match n.get_fs_offset idx with
      | .panicked msg => .panicked msg
      | .err e => .err e
      | .ok fs_start_offset =>
        match fs_header.encryption_type with
        | .aesCtr =>
          .ok { base_offset :=
                  fs_start_offset +
                    ((fs_header.hash_info.hierarchical_integrity.levels.getLast?).getD
                      ⟨0, 0, 0⟩).offset
                ctr := fs_header.ctr
                key := n.get_aes_ctr_decrypt_key }
        | enc_type =>
          .panicked ("not yet implemented: Unsupported crypto type: " ++ enc_type.debugName)

/-! ## `src/pfs0.rs`: data model and operations

The PFS0 reader owns a shared handle to its (already decrypting) byte
source. We model the source as a pure function
`src : Nat → Nat → List Nat` taking an absolute offset and a requested
length to the bytes a seek-then-read at that position produces (possibly
fewer than requested: Rust `read` may return a short read). Functions that
touch the source additionally return the trace of `(offset, length)`
ranged reads they issued, so "exactly one read at offset X" is a statement
about the embedding, and an error path that never touches the source has
an empty trace. -/

/-- `pfs0.rs` `Header`. -/
structure Pfs0Header where
  magic : Nat
  file_count : Nat
  string_table_size : Nat
  deriving Repr, DecidableEq

/-- `Header::MAGIC = u32::from_le_bytes(*b"PFS0")`. -/
def Pfs0Header.MAGIC : Nat := 0x30534650

/-- `size_of::<pfs0::Header>()`: magic (4) + file_count (4) +
string_table_size (4) + reserved (4). -/
def pfs0HeaderSize : Nat := 0x10

/-- `pfs0.rs` `FileEntry`. -/
structure FileEntry where
  offset : Nat
  size : Nat
  string_table_offset : Nat
  deriving Repr, DecidableEq

/-- `size_of::<FileEntry>()`: offset (8) + size (8) +
string_table_offset (4) + reserved (4). -/
def fileEntrySize : Nat := 0x18

/-- The in-memory `PFS0` struct (minus the shared reader handle, threaded
separately by the pure embedding). -/
structure PFS0 where
  header : Pfs0Header
  file_entries : List FileEntry
  string_table : List Nat
  deriving Repr, DecidableEq

/-- `PFS0::get_file_size`. -/
def PFS0.get_file_size (p : PFS0) (idx : Nat) : Outcome Nat :=
  if idx ≥ p.file_entries.length then
    .err ⟨.invalidInput, "Invalid file index"⟩
  else
    .ok (p.file_entries.getD idx ⟨0, 0, 0⟩).size

/-- `PFS0::read_file(idx, offset, buf)` for a buffer of length `bufLen`:
index check, bounds check `offset + bufLen ≤ entry.size`, then one
seek-plus-read on the underlying source at
`size_of(Header) + size_of(FileEntry) * header.file_count +
header.string_table_size + entry.offset + offset`. Returns the pair of
the Rust result — `Ok` carries the bytes placed in `buf` and the returned
count — and the trace of `(absolute offset, length)` reads issued. -/
def PFS0.read_file (p : PFS0) (src : Nat → Nat → List Nat)
    (idx offset bufLen : Nat) :
    Outcome (List Nat × Nat) × List (Nat × Nat) :=
  if idx ≥ p.file_entries.length then
    (.err ⟨.invalidInput, "Invalid file index"⟩, [])
  else
    let entry := p.file_entries.getD idx ⟨0, 0, 0⟩
    if offset + bufLen > entry.size then
      (.err ⟨.unexpectedEof, "EOF reached"⟩, [])
    else
      let base_offset :=
        pfs0HeaderSize + fileEntrySize * p.header.file_count + p.header.string_table_size
      let base_read_offset := base_offset + entry.offset
      let read_offset := base_read_offset + offset
      let data := src read_offset bufLen
      (.ok (data, data.length), [(read_offset, bufLen)])

/-- A pure, never-short-reading source backed by the byte list `data`:
a read of `n` bytes at offset `off` yields `data[off .. off+n)` (clipped
at the end of the data, as a real seekable file clips at EOF). -/
def pureSrc (data : List Nat) : Nat → Nat → List Nat :=
  fun off n => (data.drop off).take n

/-- The bytes of the C string at `string_table[off..]`: everything up to
(excluding) the first NUL, or to the end of the table if no NUL occurs —
exactly the loop in `PFS0::list_files`. -/
def takeUntilNul : List Nat → List Nat
  | [] => []
  | c :: rest => if c = 0 then [] else c :: takeUntilNul rest

/-- True iff `b` is a UTF-8 continuation byte (`0x80..=0xBF`). -/
def isUtf8Cont (b : Nat) : Bool :=
  0x80 ≤ b ∧ b ≤ 0xBF

/-- UTF-8 validity of a byte sequence, per RFC 3629 as implemented by
Rust's `String::from_utf8`: ASCII; two-byte sequences `C2..DF`; three-byte
sequences with the `E0`/`ED` range restrictions; four-byte sequences with
the `F0`/`F4` range restrictions; continuation bytes are `80..BF`. -/
def utf8Valid : List Nat → Bool
  | [] => true
  | b :: rest =>
    if b ≤ 0x7F then
      utf8Valid rest
    else if 0xC2 ≤ b ∧ b ≤ 0xDF then
      match rest with
      | c1 :: rest1 => isUtf8Cont c1 && utf8Valid rest1
      | [] => false
    else if b = 0xE0 then
      match rest with
      | c1 :: c2 :: rest2 =>
        (0xA0 ≤ c1 && c1 ≤ 0xBF) && isUtf8Cont c2 && utf8Valid rest2
      | _ => false
    else if (0xE1 ≤ b ∧ b ≤ 0xEC) ∨ b = 0xEE ∨ b = 0xEF then
      match rest with
      | c1 :: c2 :: rest2 => isUtf8Cont c1 && isUtf8Cont c2 && utf8Valid rest2
      | _ => false
    else if b = 0xED then
      match rest with
      | c1 :: c2 :: rest2 =>
        (0x80 ≤ c1 && c1 ≤ 0x9F) && isUtf8Cont c2 && utf8Valid rest2
      | _ => false
    else if b = 0xF0 then
      match rest with
      | c1 :: c2 :: c3 :: rest3 =>
        (0x90 ≤ c1 && c1 ≤ 0xBF) && isUtf8Cont c2 && isUtf8Cont c3 && utf8Valid rest3
      | _ => false
    else if 0xF1 ≤ b ∧ b ≤ 0xF3 then
      match rest with
      | c1 :: c2 :: c3 :: rest3 =>
        isUtf8Cont c1 && isUtf8Cont c2 && isUtf8Cont c3 && utf8Valid rest3
      | _ => false
    else if b = 0xF4 then
      match rest with
      | c1 :: c2 :: c3 :: rest3 =>
        (0x80 ≤ c1 && c1 ≤ 0x8F) && isUtf8Cont c2 && isUtf8Cont c3 && utf8Valid rest3
      | _ => false
    else
      false

/-- The per-entry body of the `PFS0::list_files` loop: `&string_table[off..]`
panics when `off` exceeds the table length; collecting bytes up to the
first NUL and `String::from_utf8(bytes).unwrap()` panics on invalid UTF-8;
otherwise the name's bytes are produced. -/
def listFilesEntry (string_table : List Nat) (entry : FileEntry) :
    Outcome (List Nat) :=
  if entry.string_table_offset > string_table.length then
    .panicked "range start index out of range for slice"
  else
    let bytes := takeUntilNul (string_table.drop entry.string_table_offset)
    if utf8Valid bytes then .ok bytes
    else .panicked "called Result::unwrap() on an Err value: FromUtf8Error"

/-- The `PFS0::list_files` loop over a list of entries: process entries in
order, stopping at the first panic. -/
def listFilesLoop (string_table : List Nat) : List FileEntry → Outcome (List (List Nat))
  | [] => .ok []
  | e :: rest =>
    match listFilesEntry string_table e with
    | .ok bytes =>
      match listFilesLoop string_table rest with
      | .ok names => .ok (bytes :: names)
      | other => other
    | .err e => .err e
    | .panicked msg => .panicked msg

/-- `PFS0::list_files`: one decoded name (as its byte sequence) per file
entry in entry order; the only non-`Ok` exits are panics. -/
def PFS0.list_files (p : PFS0) : Outcome (List (List Nat)) :=
  listFilesLoop p.string_table p.file_entries

/-! ## Lock structure of the PFS0 read paths (`src/pfs0.rs`)

Modelled from the spec only to the extent of the lock itself: `Shared<T>`
is defined in `util.rs`, which is not part of the provided sources; spec
§2.A/§5/§9 describe it as a reference-counted handle around a
mutual-exclusion lock, and `pfs0.rs` calls `.lock().unwrap()` on it. What
*is* taken from `pfs0.rs` verbatim is how many times the lock is taken:
both `PFS0::read_file` and `PFS0FileReader::read` call
`self.…lock().unwrap().seek(…)` and then, in a separate statement,
`self.…lock().unwrap().read(buf)` — two acquisitions, so the seek and the
read sit in two distinct critical sections. We model programs as lists of
critical sections (each inner list runs under one lock acquisition) over a
shared seekable source, and interleave two such programs under a schedule
that hands whole critical sections to one reader or the other — exactly
the interleavings the mutex permits. -/

/-- An operation on the shared underlying source. -/
inductive SrcOp
  | seek (pos : Nat)
  | read (len : Nat)
  deriving Repr, DecidableEq

/-- State of the shared source: current position plus the backing bytes. -/
structure SrcState where
  pos : Nat
  data : List Nat
  deriving Repr, DecidableEq

/-- Execute one source operation: `seek` sets the position, `read n`
returns the next `n` bytes and advances the position. -/
def runOp (st : SrcState) : SrcOp → SrcState × List (List Nat)
  | .seek p => ({ st with pos := p }, [])
  | .read n => ({ st with pos := st.pos + n }, [(st.data.drop st.pos).take n])

/-- Execute the operations of one critical section in order, accumulating
the bytes produced by the reads. -/
def runSection (st : SrcState) : List SrcOp → SrcState × List (List Nat)
  | [] => (st, [])
  | op :: rest =>
    let (st1, out1) := runOp st op
    let (st2, out2) := runSection st1 rest
    (st2, out1 ++ out2)

/-- Interleave two critical-section programs `a` and `b` under `sched`:
`true` hands the lock to the next whole section of `a`, `false` to the
next whole section of `b`. Returns the final state and the bytes each
program's reads observed. The mutex serializes whole sections, so these
schedules are exactly the executions two threads can produce. -/
def runSched (sched : List Bool) (a b : List (List SrcOp)) (st : SrcState) :
    SrcState × List (List Nat) × List (List Nat) :=
  match sched with
  | [] => (st, [], [])
  | pick :: rest =>
    if pick then
      match a with
      | [] => runSched rest [] b st
      | sec :: a_rest =>
        let (st1, out) := runSection st sec
        let (st2, aOut, bOut) := runSched rest a_rest b st1
        (st2, out ++ aOut, bOut)
    else
      match b with
      | [] => runSched rest a [] st
      | sec :: b_rest =>
        let (st1, out) := runSection st sec
        let (st2, aOut, bOut) := runSched rest a b_rest st1
        (st2, aOut, out ++ bOut)

/-- The critical sections `PFS0::read_file` executes on the shared source
once its bounds checks pass: one lock acquisition for the seek to the
computed absolute offset, then a second, separate acquisition for the
read. Taken directly from the two `.lock().unwrap()` statements in the
source. -/
def readFileLockSections (read_offset bufLen : Nat) : List (List SrcOp) :=
  [[SrcOp.seek read_offset], [SrcOp.read bufLen]]

/-- The critical sections the spec's atomicity sentence describes: the
seek and the read under a single lock acquisition. -/
def atomicLockSections (read_offset bufLen : Nat) : List (List SrcOp) :=
  [[SrcOp.seek read_offset, SrcOp.read bufLen]]

/-! ## Shared concrete instances for witnesses and counterexamples -/

/-- Identity "block cipher": stands in for an arbitrary concrete AES-128
block decryption when a witness only needs *some* block cipher. -/
def aesId : List Nat → List Nat → List Nat := fun _ b => b

/-- A minimal keyset: one application key-area key at generation 0. -/
def keyset0 : Keyset :=
  { header_key := List.replicate 0x20 0
    key_area_keys_application := [List.replicate 0x10 0]
    key_area_keys_ocean := []
    key_area_keys_system := []
    title_key_encryption_keys := [] }

/-- A header with a wrong magic value (`0x12345678`). -/
def c4Header : Header :=
  { magic := 0x12345678
    key_generation_old := 0
    key_area_encryption_key_index := .application
    key_generation := 0
    rights_id := List.replicate 0x10 0
    fs_entries := []
    encrypted_key_area := List.replicate 0x40 0 }

/-- A present PFS0 section header with AES-CTR encryption. -/
def c2FsHeader : FileSystemHeader :=
  { fsHeaderDefault with
      fs_type := .partitionFs
      encryption_type := .aesCtr
      ctr := 7 }

/-- A valid all-zero-rights header whose first section is present. -/
def c2Header : Header :=
  { magic := Header.MAGIC
    key_generation_old := 0
    key_area_encryption_key_index := .application
    key_generation := 0
    rights_id := List.replicate 0x10 0
    fs_entries := [⟨1, 2⟩, ⟨0, 0⟩, ⟨0, 0⟩, ⟨0, 0⟩]
    encrypted_key_area := List.range 0x40 }

/-- The four decrypted section headers matching `c2Header`. -/
def c2FsHeaders : List FileSystemHeader :=
  [c2FsHeader, fsHeaderDefault, fsHeaderDefault, fsHeaderDefault]

/-- The NCA value `NCA::new` produces from `c2Header` under the identity
block cipher and `keyset0`. -/
def c2Nca : NCA :=
  { dec_key_area :=
      KeyArea.from_slice (ecbDecrypt aesId (List.replicate 0x10 0) (List.range 0x40))
    dec_title_key := none
    header := c2Header
    fs_headers := [c2FsHeader] }

/-- The section header at active index `idx` of an opened NCA (total via
`getD`; the Rust code indexes only after its own bounds check). -/
def activeHeader (n : NCA) (idx : Nat) : FileSystemHeader :=
  n.fs_headers.getD idx fsHeaderDefault

/-- A present, AES-CTR, PartitionFs section header (for the C1
failing input: it sits in original slot 1). -/
def c1PresentFsHeader : FileSystemHeader :=
  { fsHeaderDefault with
      fs_type := .partitionFs
      encryption_type := .aesCtr }

/-- C1 failing input: a valid header whose slot 0 is absent
(`start_offset = 0`) while slot 1 is present starting at media unit 6. -/
def c1Header : Header :=
  { magic := Header.MAGIC
    key_generation_old := 0
    key_area_encryption_key_index := .application
    key_generation := 0
    rights_id := List.replicate 0x10 0
    fs_entries := [⟨0, 0⟩, ⟨6, 8⟩, ⟨0, 0⟩, ⟨0, 0⟩]
    encrypted_key_area := List.replicate 0x40 0 }

/-- The four decrypted section headers matching `c1Header`: the present
one is in slot 1. -/
def c1FsHeaders : List FileSystemHeader :=
  [fsHeaderDefault, c1PresentFsHeader, fsHeaderDefault, fsHeaderDefault]

/-- The NCA value `NCA::new` produces from `c1Header`: only the slot-1
section header survives the filtering, at active index 0. -/
def c1Nca : NCA :=
  { dec_key_area :=
      KeyArea.from_slice (ecbDecrypt aesId (List.replicate 0x10 0) (List.replicate 0x40 0))
    dec_title_key := none
    header := c1Header
    fs_headers := [c1PresentFsHeader] }

/-- An active PartitionFs section whose encryption type is `None`
(unsupported), for C3. -/
def c3FsHeaderNoneCrypto : FileSystemHeader :=
  { fsHeaderDefault with
      fs_type := .partitionFs
      encryption_type := .noCrypto }

/-- A valid header whose first section is present, for C3. -/
def c3Header : Header :=
  { magic := Header.MAGIC
    key_generation_old := 0
    key_area_encryption_key_index := .application
    key_generation := 0
    rights_id := List.replicate 0x10 0
    fs_entries := [⟨1, 2⟩, ⟨0, 0⟩, ⟨0, 0⟩, ⟨0, 0⟩]
    encrypted_key_area := List.replicate 0x40 0 }

/-- The opened NCA for C3: one active section, PartitionFs, encryption
type `None`, sparse generation 0. -/
def c3Nca : NCA :=
  { dec_key_area :=
      KeyArea.from_slice (ecbDecrypt aesId (List.replicate 0x10 0) (List.replicate 0x40 0))
    dec_title_key := none
    header := c3Header
    fs_headers := [c3FsHeaderNoneCrypto] }

/-- The data base offset of a PFS0, as `read_file` computes it:
`size_of(Header) + size_of(FileEntry) * file_count + string_table_size`. -/
def pfs0DataBase (p : PFS0) : Nat :=
  pfs0HeaderSize + fileEntrySize * p.header.file_count + p.header.string_table_size

/-- The bytes a `read_file` call placed into the caller's buffer (empty
when the call did not return `Ok`). -/
def readBytes (r : Outcome (List Nat × Nat) × List (Nat × Nat)) : List Nat :=
  match r.1 with
  | .ok (b, _) => b
  | _ => []

/-- The critical sections `PFS0FileReader::read` executes: like
`PFS0::read_file`, one lock acquisition for the seek to `self.read_offset`
and a second, separate acquisition for the read. -/
def fileReaderLockSections (read_offset bufLen : Nat) : List (List SrcOp) :=
  [[SrcOp.seek read_offset], [SrcOp.read bufLen]]

/-- The PFS0 of spec scenario 1: one file `"a.txt"` of size 5 at offset 0,
string table `"a.txt\x00\x00\x00"`. -/
def pfs0Ex : PFS0 :=
  { header := { magic := Pfs0Header.MAGIC, file_count := 1, string_table_size := 8 }
    file_entries := [⟨0, 5, 0⟩]
    string_table := [97, 46, 116, 120, 116, 0, 0, 0] }

/-- Backing bytes for `pfs0Ex`: 0x30 bytes of metadata padding (the data
base offset of `pfs0Ex`) followed by the file content `"hello"`. -/
def exData : List Nat :=
  List.replicate 0x30 0 ++ [104, 101, 108, 108, 111]

/-! ## Theorems -/

/-- Every successful `open_pfs0_filesystem` hands the CTR reader the key
returned by `get_aes_ctr_decrypt_key`. -/
theorem open_pfs0_key_eq (n : NCA) (idx : Nat) (cfg : CtrReaderCfg)
    (h : n.open_pfs0_filesystem idx = .ok cfg) :
    cfg.key = n.get_aes_ctr_decrypt_key := by
  unfold NCA.open_pfs0_filesystem at h
  simp only [ne_eq] at h
  repeat' split at h
  all_goals cases h
  all_goals rfl

/-- Every successful `open_romfs_filesystem` hands the CTR reader the key
returned by `get_aes_ctr_decrypt_key`. -/
theorem open_romfs_key_eq (n : NCA) (idx : Nat) (cfg : CtrReaderCfg)
    (h : n.open_romfs_filesystem idx = .ok cfg) :
    cfg.key = n.get_aes_ctr_decrypt_key := by
  unfold NCA.open_romfs_filesystem at h
  simp only [ne_eq] at h
  repeat' split at h
  all_goals cases h
  all_goals rfl

/-- C5: for every header, the effective key generation computed during
`NCA::open` equals `max(key_generation_old, key_generation)`, decremented
by 1 when that maximum is at least 1 (0 and 1 both map to master key 0);
in particular `old = 0`, `new = 3` yields 2. -/
theorem c5_effective_key_generation :
    (∀ h : Header, h.get_key_generation =
        if 1 ≤ max h.key_generation_old h.key_generation then
          max h.key_generation_old h.key_generation - 1
        else max h.key_generation_old h.key_generation) ∧
    Header.get_key_generation
        { magic := Header.MAGIC
          key_generation_old := 0
          key_area_encryption_key_index := .application
          key_generation := 3
          rights_id := List.replicate 0x10 0
          fs_entries := []
          encrypted_key_area := [] } = 2 := by
  constructor
  · intro h
    simp only [Header.get_key_generation, Nat.max_def]
    split_ifs <;> omega
  · rfl

/-- C4: for every archive whose XTS-decrypted header has a magic other
than ASCII "NCA3", `NCA::new` returns an `InvalidInput` error, so no NCA
object (and hence no derived PFS0/RomFs object) is created. -/
theorem c4_bad_magic_invalid_input :
    ∀ (aesDecBlock : List Nat → List Nat → List Nat) (header : Header)
      (fs_headers : List FileSystemHeader) (keyset : Keyset)
      (title_key : Option (List Nat)),
      header.magic ≠ Header.MAGIC →
      NCA.new aesDecBlock header fs_headers keyset title_key =
        .err ⟨.invalidInput, "Invalid NCA magic (only NCA3 is supported for now)"⟩ := by
  intro aesDecBlock header fs ks tk hmagic
  simp [NCA.new, hmagic]

/-- Witness for C4: the header with magic `0x12345678` is rejected with
`InvalidInput`. -/
theorem c4_bad_magic_invalid_input_witness :
    c4Header.magic ≠ Header.MAGIC ∧
    NCA.new aesId c4Header [] keyset0 none =
      .err ⟨.invalidInput, "Invalid NCA magic (only NCA3 is supported for now)"⟩ :=
  ⟨by decide, c4_bad_magic_invalid_input aesId c4Header [] keyset0 none (by decide)⟩

/-- C2: for every NCA whose `rights_id` is all-zero, after a successful
open the AES-CTR decryption key — the one `get_aes_ctr_decrypt_key`
returns, and the one every successfully constructed per-section CTR
reader is given — equals bytes `0x20..0x30` of the AES-128-ECB (no
padding) decryption of the header's 0x40-byte encrypted key area under
the selected key-area key
(`selectKeyAreaKeys keyset kaek_index` at the effective key generation,
e.g. `keyset.key_area_keys_application[key_gen]` for `Application`). -/
theorem c2_zero_rights_ctr_key :
    ∀ (aesDecBlock : List Nat → List Nat → List Nat) (header : Header)
      (fs_headers : List FileSystemHeader) (keyset : Keyset)
      (title_key : Option (List Nat)) (n : NCA),
      header.rights_id = List.replicate 0x10 0 →
      NCA.new aesDecBlock header fs_headers keyset title_key = .ok n →
      n.get_aes_ctr_decrypt_key =
        ((ecbDecrypt aesDecBlock
            ((selectKeyAreaKeys keyset header.key_area_encryption_key_index).getD
              header.get_key_generation [])
            header.encrypted_key_area).drop 0x20).take 0x10 ∧
      (∀ idx cfg, n.open_pfs0_filesystem idx = .ok cfg →
        cfg.key =
          ((ecbDecrypt aesDecBlock
              ((selectKeyAreaKeys keyset header.key_area_encryption_key_index).getD
                header.get_key_generation [])
              header.encrypted_key_area).drop 0x20).take 0x10) ∧
      (∀ idx cfg, n.open_romfs_filesystem idx = .ok cfg →
        cfg.key =
          ((ecbDecrypt aesDecBlock
              ((selectKeyAreaKeys keyset header.key_area_encryption_key_index).getD
                header.get_key_generation [])
              header.encrypted_key_area).drop 0x20).take 0x10) := by
  intro aesDecBlock header fs_headers keyset title_key n hrights hok
  have hkey : n.get_aes_ctr_decrypt_key =
      ((ecbDecrypt aesDecBlock
          ((selectKeyAreaKeys keyset header.key_area_encryption_key_index).getD
            header.get_key_generation [])
          header.encrypted_key_area).drop 0x20).take 0x10 := by
    unfold NCA.new at hok
    rw [hrights] at hok
    simp only [ne_eq, not_true_eq_false, if_false, ite_false] at hok
    split at hok
    · cases hok
    · split at hok
      · cases hok
      · cases hok
        rfl
  refine ⟨hkey, ?_, ?_⟩
  · intro idx cfg hcfg
    rw [open_pfs0_key_eq n idx cfg hcfg, hkey]
  · intro idx cfg hcfg
    rw [open_romfs_key_eq n idx cfg hcfg, hkey]

/-- Witness for C2: a concrete all-zero-rights NCA opened with the
identity block cipher; its CTR key is bytes `0x20..0x30` of the decrypted
key area. -/
theorem c2_zero_rights_ctr_key_witness :
    c2Header.rights_id = List.replicate 0x10 0 ∧
    NCA.new aesId c2Header c2FsHeaders keyset0 none = .ok c2Nca ∧
    c2Nca.get_aes_ctr_decrypt_key =
      ((ecbDecrypt aesId
          ((selectKeyAreaKeys keyset0 c2Header.key_area_encryption_key_index).getD
            c2Header.get_key_generation [])
          c2Header.encrypted_key_area).drop 0x20).take 0x10 :=
  ⟨rfl, rfl,
    (c2_zero_rights_ctr_key aesId c2Header c2FsHeaders keyset0 none c2Nca rfl rfl).1⟩

/-- C1 (code bug): when an absent section precedes a present one,
`NCA::new` keeps only the present section *header* (active index 0), but
`get_fs_offset` pairs that active index with the *original* four-slot
entry array, so it reads absent slot 0's entry and yields start offset 0
instead of the active pair's `6 * 0x200 = 0xC00`. Evaluates the code on
the failing input. -/
theorem c1_fs_offset_uses_original_slot :
    NCA.new aesId c1Header c1FsHeaders keyset0 none = .ok c1Nca ∧
    c1Nca.get_filesystem_count = 1 ∧
    c1Nca.fs_headers = [c1PresentFsHeader] ∧
    c1Nca.get_fs_offset 0 = .ok 0 ∧
    c1Nca.get_fs_offset 0 ≠ .ok (6 * 0x200) :=
  ⟨rfl, rfl, rfl, rfl, by decide⟩

/-- Counterexample to C3: on an opened NCA whose single active section is
a PartitionFs with encryption type `None` (and sparse generation 0),
`open_pfs0_filesystem` does not return an `Unsupported` error result at
all — it panics via `todo!`. -/
theorem c3_counterexample :
    NCA.new aesId c3Header [c3FsHeaderNoneCrypto, fsHeaderDefault, fsHeaderDefault,
        fsHeaderDefault] keyset0 none = .ok c3Nca ∧
    c3Nca.open_pfs0_filesystem 0 =
      .panicked "not yet implemented: Unsupported crypto type: None" ∧
    (c3Nca.open_pfs0_filesystem 0).isErr = false ∧
    (c3Nca.open_pfs0_filesystem 0).isPanicked = true :=
  ⟨rfl, rfl, rfl, rfl⟩

/-- C3 as amended: for every active section of the matching filesystem
type, `open_pfs0_filesystem`/`open_romfs_filesystem` abort with a *panic*
(Rust `todo!`), not a returned error: with the sparse-section message when
`sparse_info.generation ≠ 0` (checked first, in `get_fs_offset`), and
with the "Unsupported crypto type" message when the section is not sparse
and its encryption type is not `AesCtr`. -/
theorem c3_amended_unsupported_panics :
    ∀ (n : NCA) (idx : Nat),
      idx < n.fs_headers.length →
      ((activeHeader n idx).sparse_info.generation ≠ 0 →
        ((activeHeader n idx).fs_type = .partitionFs →
          n.open_pfs0_filesystem idx =
            .panicked "not yet implemented: Sparse section NCA support") ∧
        ((activeHeader n idx).fs_type = .romFs →
          n.open_romfs_filesystem idx =
            .panicked "not yet implemented: Sparse section NCA support")) ∧
      ((activeHeader n idx).sparse_info.generation = 0 →
        (activeHeader n idx).encryption_type ≠ .aesCtr →
        ((activeHeader n idx).fs_type = .partitionFs →
          n.open_pfs0_filesystem idx =
            .panicked ("not yet implemented: Unsupported crypto type: " ++
              (activeHeader n idx).encryption_type.debugName)) ∧
        ((activeHeader n idx).fs_type = .romFs →
          n.open_romfs_filesystem idx =
            .panicked ("not yet implemented: Unsupported crypto type: " ++
              (activeHeader n idx).encryption_type.debugName))) := by
  intro n idx hidx
  have hnot : ¬ idx ≥ n.fs_headers.length := by omega
  constructor
  · intro hgen
    constructor
    · intro hfs
      simp only [activeHeader, List.getD_eq_getElem?_getD] at hgen hfs
      simp [NCA.open_pfs0_filesystem, NCA.get_fs_offset, hnot, hfs, hgen]
    · intro hfs
      simp only [activeHeader, List.getD_eq_getElem?_getD] at hgen hfs
      simp [NCA.open_romfs_filesystem, NCA.get_fs_offset, hnot, hfs, hgen]
  · intro hgen henc
    constructor
    · intro hfs
      simp only [activeHeader, List.getD_eq_getElem?_getD] at hgen henc hfs ⊢
      simp [NCA.open_pfs0_filesystem, NCA.get_fs_offset, hnot, hfs, hgen]
    · intro hfs
      simp only [activeHeader, List.getD_eq_getElem?_getD] at hgen henc hfs ⊢
      simp [NCA.open_romfs_filesystem, NCA.get_fs_offset, hnot, hfs, hgen]

/-- Witness for amended C3: the concrete NCA with a `None`-encrypted
active PartitionFs section panics with the unsupported-crypto message. -/
theorem c3_amended_unsupported_panics_witness :
    0 < c3Nca.fs_headers.length ∧
    (activeHeader c3Nca 0).sparse_info.generation = 0 ∧
    (activeHeader c3Nca 0).encryption_type ≠ EncryptionType.aesCtr ∧
    (activeHeader c3Nca 0).fs_type = FileSystemType.partitionFs ∧
    c3Nca.open_pfs0_filesystem 0 =
      .panicked ("not yet implemented: Unsupported crypto type: " ++
        (activeHeader c3Nca 0).encryption_type.debugName) :=
  ⟨by decide, rfl, by decide, rfl,
    ((c3_amended_unsupported_panics c3Nca 0 (by decide)).2 rfl (by decide)).1 rfl⟩

/-- In-bounds `read_file` calls issue exactly one read at
`data_base + entry.offset + offset` and return its bytes and count
(shared helper for the read-path theorems). -/
theorem read_file_ok (p : PFS0) (src : Nat → Nat → List Nat)
    (idx offset bufLen : Nat)
    (h1 : idx < p.file_entries.length)
    (h2 : offset + bufLen ≤ (p.file_entries.getD idx ⟨0, 0, 0⟩).size) :
    p.read_file src idx offset bufLen =
      (.ok (src (pfs0DataBase p + (p.file_entries.getD idx ⟨0, 0, 0⟩).offset + offset) bufLen,
        (src (pfs0DataBase p + (p.file_entries.getD idx ⟨0, 0, 0⟩).offset + offset) bufLen).length),
       [(pfs0DataBase p + (p.file_entries.getD idx ⟨0, 0, 0⟩).offset + offset, bufLen)]) := by
  have hn1 : ¬ idx ≥ p.file_entries.length := by omega
  simp only [List.getD_eq_getElem?_getD] at h2 ⊢
  have hn2 : ¬ offset + bufLen > (p.file_entries[idx]?.getD ⟨0, 0, 0⟩).size := by omega
  simp [PFS0.read_file, pfs0DataBase, hn1, hn2]

/-- C6: for every parsed PFS0, valid index and in-bounds offset,
`read_file(i, offset, buf)` issues exactly one ranged read on the
underlying source, at absolute offset `data_base + entry[i].offset +
offset` with `data_base = sizeof(Header) + file_count * sizeof(Entry) +
string_table_size`, and returns the number of bytes that read produced. -/
theorem c6_read_file_single_read :
    ∀ (p : PFS0) (src : Nat → Nat → List Nat) (idx offset bufLen : Nat),
      idx < p.file_entries.length →
      offset + bufLen ≤ (p.file_entries.getD idx ⟨0, 0, 0⟩).size →
      p.read_file src idx offset bufLen =
        (.ok (src (pfs0DataBase p + (p.file_entries.getD idx ⟨0, 0, 0⟩).offset + offset) bufLen,
          (src (pfs0DataBase p + (p.file_entries.getD idx ⟨0, 0, 0⟩).offset + offset) bufLen).length),
         [(pfs0DataBase p + (p.file_entries.getD idx ⟨0, 0, 0⟩).offset + offset, bufLen)]) :=
  fun p src idx offset bufLen h1 h2 => read_file_ok p src idx offset bufLen h1 h2

/-- Witness for C6: the scenario-1 PFS0 over a pure source; reading all 5
bytes of file 0 issues one read at the data base (0x30) and returns
`"hello"` with count 5. -/
theorem c6_read_file_single_read_witness :
    0 < pfs0Ex.file_entries.length ∧
    0 + 5 ≤ (pfs0Ex.file_entries.getD 0 ⟨0, 0, 0⟩).size ∧
    pfs0Ex.read_file (pureSrc exData) 0 0 5 =
      (.ok ([104, 101, 108, 108, 111], 5), [(0x30, 5)]) := by
  refine ⟨by decide, by decide, ?_⟩
  rw [c6_read_file_single_read pfs0Ex (pureSrc exData) 0 0 5 (by decide) (by decide)]
  rfl

/-- C7: for every parsed PFS0 and valid index with declared size `s`,
`read_file(i, s, buf)` succeeds for an empty buffer (zero-length read at
end of file) and fails for any buffer of positive length with the
bounds-violation error (spec taxonomy `OutOfRange`; realized in the code
as `ErrorKind::UnexpectedEof` with message `"EOF reached"`), issuing no
read on the source — the PFS0's only mutable state, the shared reader, is
untouched on that error. -/
theorem c7_read_at_eof :
    ∀ (p : PFS0) (src : Nat → Nat → List Nat) (idx k : Nat),
      idx < p.file_entries.length →
      0 < k →
      (p.read_file src idx (p.file_entries.getD idx ⟨0, 0, 0⟩).size 0).1.isOk = true ∧
      p.read_file src idx (p.file_entries.getD idx ⟨0, 0, 0⟩).size k =
        (.err ⟨.unexpectedEof, "EOF reached"⟩, []) := by
  intro p src idx k h1 hk
  have hn1 : ¬ idx ≥ p.file_entries.length := by omega
  constructor
  · have h := read_file_ok p src idx (p.file_entries.getD idx ⟨0, 0, 0⟩).size 0 h1 (by omega)
    rw [h]
    rfl
  · simp only [List.getD_eq_getElem?_getD]
    have hgt : (p.file_entries[idx]?.getD ⟨0, 0, 0⟩).size + k >
        (p.file_entries[idx]?.getD ⟨0, 0, 0⟩).size := by omega
    simp [PFS0.read_file, hn1, hgt]

/-- Witness for C7: on the scenario-1 PFS0 (file size 5), a zero-length
read at offset 5 succeeds and a one-byte read at offset 5 fails with the
bounds error and an empty source trace. -/
theorem c7_read_at_eof_witness :
    0 < pfs0Ex.file_entries.length ∧ 0 < 1 ∧
    (pfs0Ex.read_file (pureSrc exData) 0
        (pfs0Ex.file_entries.getD 0 ⟨0, 0, 0⟩).size 0).1.isOk = true ∧
    pfs0Ex.read_file (pureSrc exData) 0
        (pfs0Ex.file_entries.getD 0 ⟨0, 0, 0⟩).size 1 =
      (.err ⟨.unexpectedEof, "EOF reached"⟩, []) :=
  ⟨by decide, by decide,
    (c7_read_at_eof pfs0Ex (pureSrc exData) 0 1 (by decide) (by decide)).1,
    (c7_read_at_eof pfs0Ex (pureSrc exData) 0 1 (by decide) (by decide)).2⟩

/-- C9: over a fixed pure (non-short-reading) source, any two in-bounds
reads of the same PFS0 file whose ranges overlap return byte-identical
data on the overlap — both equal the backing data at
`data_base + entry.offset + k` for every common position `k` — and
repeated reads of the same range are idempotent (the embedding of a read
over a pure source is a pure function, so the `o1 = o2, n1 = n2` case of
the equality below is exactly idempotence). -/
theorem c9_overlap_reads_agree :
    ∀ (data : List Nat) (p : PFS0) (idx o1 n1 o2 n2 k : Nat),
      idx < p.file_entries.length →
      o1 + n1 ≤ (p.file_entries.getD idx ⟨0, 0, 0⟩).size →
      o2 + n2 ≤ (p.file_entries.getD idx ⟨0, 0, 0⟩).size →
      o1 ≤ k → k < o1 + n1 → o2 ≤ k → k < o2 + n2 →
      (p.read_file (pureSrc data) idx o1 n1).1.isOk = true ∧
      (p.read_file (pureSrc data) idx o2 n2).1.isOk = true ∧
      (readBytes (p.read_file (pureSrc data) idx o1 n1))[k - o1]? =
        data[pfs0DataBase p + (p.file_entries.getD idx ⟨0, 0, 0⟩).offset + k]? ∧
      (readBytes (p.read_file (pureSrc data) idx o1 n1))[k - o1]? =
        (readBytes (p.read_file (pureSrc data) idx o2 n2))[k - o2]? := by
  intro data p idx o1 n1 o2 n2 k h1 hb1 hb2 hk1 hk2 hk3 hk4
  have key : ∀ o n, o + n ≤ (p.file_entries.getD idx ⟨0, 0, 0⟩).size → o ≤ k → k < o + n →
      (readBytes (p.read_file (pureSrc data) idx o n))[k - o]? =
        data[pfs0DataBase p + (p.file_entries.getD idx ⟨0, 0, 0⟩).offset + k]? := by
    intro o n hb ho hn
    rw [read_file_ok p (pureSrc data) idx o n h1 hb]
    show ((data.drop (pfs0DataBase p + (p.file_entries.getD idx ⟨0, 0, 0⟩).offset + o)).take
        n)[k - o]? = _
    rw [List.getElem?_take_of_lt (by omega), List.getElem?_drop]
    congr 1
    omega
  refine ⟨?_, ?_, key o1 n1 hb1 hk1 hk2, ?_⟩
  · rw [read_file_ok p (pureSrc data) idx o1 n1 h1 hb1]
    rfl
  · rw [read_file_ok p (pureSrc data) idx o2 n2 h1 hb2]
    rfl
  · rw [key o1 n1 hb1 hk1 hk2, key o2 n2 hb2 hk3 hk4]

/-- Witness for C9: on the scenario-1 PFS0 over `exData`, the reads
`(o1, n1) = (0, 4)` and `(o2, n2) = (2, 3)` overlap at `k = 3`; both see
the byte `108` there, which is `exData[0x30 + 3]`. -/
theorem c9_overlap_reads_agree_witness :
    0 < pfs0Ex.file_entries.length ∧
    0 + 4 ≤ (pfs0Ex.file_entries.getD 0 ⟨0, 0, 0⟩).size ∧
    2 + 3 ≤ (pfs0Ex.file_entries.getD 0 ⟨0, 0, 0⟩).size ∧
    (0 ≤ 3 ∧ 3 < 0 + 4 ∧ 2 ≤ 3 ∧ 3 < 2 + 3) ∧
    (pfs0Ex.read_file (pureSrc exData) 0 0 4).1.isOk = true ∧
    (pfs0Ex.read_file (pureSrc exData) 0 2 3).1.isOk = true ∧
    (readBytes (pfs0Ex.read_file (pureSrc exData) 0 0 4))[3 - 0]? =
      exData[pfs0DataBase pfs0Ex + (pfs0Ex.file_entries.getD 0 ⟨0, 0, 0⟩).offset + 3]? ∧
    (readBytes (pfs0Ex.read_file (pureSrc exData) 0 0 4))[3 - 0]? =
      (readBytes (pfs0Ex.read_file (pureSrc exData) 0 2 3))[3 - 2]? := by
  have h := c9_overlap_reads_agree exData pfs0Ex 0 0 4 2 3 3
    (by decide) (by decide) (by decide) (by decide) (by decide) (by decide) (by decide)
  exact ⟨by decide, by decide, by decide, by decide, h.1, h.2.1, h.2.2.1, h.2.2.2⟩

/-- The per-entry body of the `list_files` loop never returns `Err`: its
only exits are `Ok` and panics. -/
theorem listFilesEntry_never_err (st : List Nat) (e : FileEntry) :
    (listFilesEntry st e).isErr = false := by
  simp only [listFilesEntry]
  split_ifs <;> rfl

/-- When the entry's string-table offset is within the table and the
C-string bytes are valid UTF-8, the loop body yields those bytes. -/
theorem listFilesEntry_ok (st : List Nat) (e : FileEntry)
    (h1 : e.string_table_offset ≤ st.length)
    (h2 : utf8Valid (takeUntilNul (st.drop e.string_table_offset)) = true) :
    listFilesEntry st e = .ok (takeUntilNul (st.drop e.string_table_offset)) := by
  unfold listFilesEntry
  have hn : ¬ e.string_table_offset > st.length := by omega
  simp [hn, h2]

/-- When the offset is out of range or the bytes are not valid UTF-8, the
loop body panics. -/
theorem listFilesEntry_panics (st : List Nat) (e : FileEntry)
    (h : ¬ (e.string_table_offset ≤ st.length ∧
        utf8Valid (takeUntilNul (st.drop e.string_table_offset)) = true)) :
    (listFilesEntry st e).isPanicked = true := by
  unfold listFilesEntry
  by_cases h1 : e.string_table_offset > st.length
  · simp [h1, Outcome.isPanicked]
  · have h2 : ¬ utf8Valid (takeUntilNul (st.drop e.string_table_offset)) = true := by
      intro hv
      exact h ⟨by omega, hv⟩
    simp [h1, h2, Outcome.isPanicked]

/-- The `list_files` loop never returns `Err`. -/
theorem listFilesLoop_never_err (st : List Nat) :
    ∀ es : List FileEntry, (listFilesLoop st es).isErr = false := by
  intro es
  induction es with
  | nil => rfl
  | cons e rest ih =>
    unfold listFilesLoop
    cases he : listFilesEntry st e with
    | ok b =>
      cases hr : listFilesLoop st rest with
      | ok ns => rfl
      | err er => rw [hr] at ih; simp [Outcome.isErr] at ih
      | panicked m => rfl
    | err er =>
      have hne := listFilesEntry_never_err st e
      rw [he] at hne
      simp [Outcome.isErr] at hne
    | panicked m => rfl

/-- Under the well-formedness precondition on every entry, the
`list_files` loop returns one decoded name per entry in entry order. -/
theorem listFilesLoop_ok (st : List Nat) :
    ∀ es : List FileEntry,
      (∀ e ∈ es, e.string_table_offset ≤ st.length ∧
        utf8Valid (takeUntilNul (st.drop e.string_table_offset)) = true) →
      listFilesLoop st es =
        .ok (es.map fun e => takeUntilNul (st.drop e.string_table_offset)) := by
  intro es
  induction es with
  | nil => intro _; rfl
  | cons e rest ih =>
    intro h
    have he := h e (by simp)
    have hrest : ∀ e' ∈ rest, e'.string_table_offset ≤ st.length ∧
        utf8Valid (takeUntilNul (st.drop e'.string_table_offset)) = true := by
      intro e' he'
      exact h e' (by simp [he'])
    unfold listFilesLoop
    rw [listFilesEntry_ok st e he.1 he.2, ih hrest]
    rfl

/-- Outside the precondition, the `list_files` loop panics. -/
theorem listFilesLoop_panics (st : List Nat) :
    ∀ es : List FileEntry,
      (¬ ∀ e ∈ es, e.string_table_offset ≤ st.length ∧
        utf8Valid (takeUntilNul (st.drop e.string_table_offset)) = true) →
      (listFilesLoop st es).isPanicked = true := by
  intro es
  induction es with
  | nil => intro h; simp at h
  | cons e rest ih =>
    intro h
    by_cases hP : e.string_table_offset ≤ st.length ∧
        utf8Valid (takeUntilNul (st.drop e.string_table_offset)) = true
    · have hrest : ¬ ∀ e' ∈ rest, e'.string_table_offset ≤ st.length ∧
          utf8Valid (takeUntilNul (st.drop e'.string_table_offset)) = true := by
        intro hall
        apply h
        intro e' he'
        rcases List.mem_cons.mp he' with h' | h'
        · subst h'; exact hP
        · exact hall e' h'
      have hip := ih hrest
      unfold listFilesLoop
      rw [listFilesEntry_ok st e hP.1 hP.2]
      cases hr : listFilesLoop st rest with
      | ok ns => rw [hr] at hip; simp [Outcome.isPanicked] at hip
      | err er => rw [hr] at hip; simp [Outcome.isPanicked] at hip
      | panicked m => rfl
    · have hep := listFilesEntry_panics st e hP
      unfold listFilesLoop
      cases he : listFilesEntry st e with
      | ok b => rw [he] at hep; simp [Outcome.isPanicked] at hep
      | err er => rw [he] at hep; simp [Outcome.isPanicked] at hep
      | panicked m => rfl

/-- C10: `PFS0::list_files` never returns an `Err` value; under the
precondition that every entry's `string_table_offset` lies within the
string table and the bytes up to the first NUL are valid UTF-8, it
returns `Ok` with one name per entry in entry order; outside that
precondition it panics (slice index out of range, or the
`String::from_utf8` unwrap) rather than surfacing an error through its
`Result` return type. -/
theorem c10_list_files_never_err :
    ∀ p : PFS0,
      (p.list_files).isErr = false ∧
      ((∀ e ∈ p.file_entries, e.string_table_offset ≤ p.string_table.length ∧
          utf8Valid (takeUntilNul (p.string_table.drop e.string_table_offset)) = true) →
        p.list_files =
          .ok (p.file_entries.map fun e =>
            takeUntilNul (p.string_table.drop e.string_table_offset))) ∧
      ((¬ ∀ e ∈ p.file_entries, e.string_table_offset ≤ p.string_table.length ∧
          utf8Valid (takeUntilNul (p.string_table.drop e.string_table_offset)) = true) →
        (p.list_files).isPanicked = true) :=
  fun p =>
    ⟨listFilesLoop_never_err p.string_table p.file_entries,
     fun h => listFilesLoop_ok p.string_table p.file_entries h,
     fun h => listFilesLoop_panics p.string_table p.file_entries h⟩

/-- Witness for C10: the scenario-1 PFS0 satisfies the precondition and
`list_files` returns exactly `["a.txt"]` (as bytes), with no `Err`. -/
theorem c10_list_files_never_err_witness :
    (pfs0Ex.list_files).isErr = false ∧
    pfs0Ex.list_files = .ok [[97, 46, 116, 120, 116]] :=
  ⟨(c10_list_files_never_err pfs0Ex).1,
    by rw [(c10_list_files_never_err pfs0Ex).2.1 (by decide)]; rfl⟩

/-- Counterexample to C8: the (seek, read) pair of `PFS0::read_file` is
*not* one atomic region. Over source bytes `[10, 11, 12, 13]`, reader A
(seek 0, read 1) and reader B (seek 2, read 1) run under the
mutex-permitted schedule A-seek, B-seek, A-read, B-read: A observes byte
12 — B's seek tore A's pair apart — whereas the atomic
one-critical-section program has A observe its own byte 10 under the
corresponding schedule. Also records that the code's lock structure is
two sections, not the single section the claim asserts. -/
theorem c8_counterexample :
    (runSched [true, false, true, false]
        (readFileLockSections 0 1) (readFileLockSections 2 1)
        ⟨0, [10, 11, 12, 13]⟩).2.1 = [[12]] ∧
    (runSched [true, false]
        (atomicLockSections 0 1) (atomicLockSections 2 1)
        ⟨0, [10, 11, 12, 13]⟩).2.1 = [[10]] ∧
    ([[12]] : List (List Nat)) ≠ [[10]] ∧
    readFileLockSections 0 1 ≠ atomicLockSections 0 1 :=
  ⟨rfl, rfl, by decide, by decide⟩

/-- C8 as amended: each individual seek and each individual read of
`PFS0::read_file` and `PFS0FileReader::read` runs under the source's
exclusive lock, but the pair spans two separate lock acquisitions, so it
is not atomic: a serial schedule gives each reader its own bytes, while
the schedule that slips reader B's seek between reader A's seek and read
redirects A's read to B's offset — for every backing data and every pair
of offsets/lengths, in both read paths. -/
theorem c8_amended_seek_read_not_atomic :
    ∀ (data : List Nat) (roA nA roB nB : Nat),
      fileReaderLockSections roA nA = readFileLockSections roA nA ∧
      (runSched [true, true, false, false]
          (readFileLockSections roA nA) (readFileLockSections roB nB)
          ⟨0, data⟩).2.1 = [(data.drop roA).take nA] ∧
      (runSched [true, false, true, false]
          (readFileLockSections roA nA) (readFileLockSections roB nB)
          ⟨0, data⟩).2.1 = [(data.drop roB).take nA] := by
  intro data roA nA roB nB
  exact ⟨rfl, rfl, rfl⟩

end Cntx
